import Mathlib

/-!
# Observer pattern (`Observer.hpp`, `Main.cpp`): embedding and verified properties

The C++ program is embedded shallowly:

* `std::cout` is the list of lines written so far (every statement of the
  program that prints ends with `std::endl`, so it appends one line);
* an `Observer*` is an address `Ptr`; the objects the addresses refer to live
  in a heap `Ptr → ObserverObj`, and the only concrete observer classes of the
  program are `UI` and `Achievement`;
* `int` is a 32-bit two's-complement integer: arithmetic on it is done in `Int`
  and wrapped by `wrapInt` (signed overflow is undefined in C++; the wrap is
  what the usual targets compute);
* the virtual call `observer->OnNotify(e)` is recorded in `World.calls`, a
  ghost trace of the receivers and events of all calls made so far.
-/

namespace ObserverPattern

/-! ## Machine integers and console output -/

/-- Value of a mathematical integer once stored in a 32-bit `int`. -/
def wrapInt (x : Int) : Int :=
  (x + 2147483648) % 4294967296 - 2147483648

/-- Lines written to `std::cout` so far. -/
abbrev Cout := List String

/-- Model of `#define LOG_WARN(msg) std::cout << " * [WARNING] " << msg << std::endl;`. -/
def LOG_WARN (msg : String) (cout : Cout) : Cout :=
  cout ++ [" * [WARNING] " ++ msg]

/-- Model of `#define LOG_INFO(msg) std::cout << " * [INFO] " << msg << std::endl;`. -/
def LOG_INFO (msg : String) (cout : Cout) : Cout :=
  cout ++ [" * [INFO] " ++ msg]

/-! ## Events -/

/-- Model of `enum class EventType`. -/
inductive EventType where
  | PLAYER_DAMAGE_EVENT
  | COIN_COLLECT_EVENT
  deriving DecidableEq, Repr

/-- Model of `struct PlayerDamageEvent`: its two data members. -/
structure PlayerDamageEvent where
  health : Int
  damage : Int
  deriving DecidableEq, Repr

/-- Model of `struct CoinCollectEvent`: its data member. -/
structure CoinCollectEvent where
  coins : Int
  deriving DecidableEq, Repr

/-- Model of an object of the abstract class `Event`: its dynamic type is one of
the two classes derived from `Event`. -/
inductive Event where
  | playerDamage (payload : PlayerDamageEvent)
  | coinCollect (payload : CoinCollectEvent)
  deriving DecidableEq, Repr

/-- Model of the virtual `GetType`, as overridden in the two derived classes. -/
def Event.GetType : Event → EventType
  | .playerDamage _ => EventType.PLAYER_DAMAGE_EVENT
  | .coinCollect _ => EventType.COIN_COLLECT_EVENT

/-- Model of `dynamic_cast<T*>(&e)` for a class `T` derived from `Event`: the
object itself seen as a `T` when its dynamic type is `T`, the null pointer
(`none`) otherwise. -/
class DynamicCast (T : Type) where
  dynamic_cast : Event → Option T

instance : DynamicCast PlayerDamageEvent where
  dynamic_cast
    | .playerDamage p => some p
    | .coinCollect _ => none

instance : DynamicCast CoinCollectEvent where
  dynamic_cast
    | .playerDamage _ => none
    | .coinCollect c => some c

/-! ## Observers -/

/-- Model of the static member template `Observer::EventCast<T>`. -/
def Observer.EventCast (T : Type) [DynamicCast T] (e : Event) (cout : Cout) :
    Option T × Cout :=
  let eventPtr : Option T := DynamicCast.dynamic_cast e
  match eventPtr with
  | none => (eventPtr, LOG_WARN "Event cast failed for event" cout)
  | some _ => (eventPtr, cout)

/-- Model of `class UI`: it has no data member. -/
structure UI where
  deriving DecidableEq, Repr

/-- Model of `UI::HealthPopUp`. -/
def UI.HealthPopUp (health : Int) (cout : Cout) : Cout :=
  cout ++ ["[UI]: You have " ++ toString health ++ " health!"]

/-- Model of `UI::CoinPopUp`. -/
def UI.CoinPopUp (amount : Int) (cout : Cout) : Cout :=
  cout ++ ["[UI]: You got " ++ toString amount ++ " coins!"]

/-- Model of `UI::OnNotify`. -/
def UI.OnNotify (e : Event) (cout : Cout) : Cout :=
  match e.GetType with
  | EventType.PLAYER_DAMAGE_EVENT =>
    match Observer.EventCast PlayerDamageEvent e cout with
    | (some casted, cout) => UI.HealthPopUp casted.health cout
    | (none, cout) => cout
  | EventType.COIN_COLLECT_EVENT =>
    match Observer.EventCast CoinCollectEvent e cout with
    | (some casted, cout) => UI.CoinPopUp casted.coins cout
    | (none, cout) => cout

/-- Model of `class Achievement`: its private flag. -/
structure Achievement where
  unlockedDamageAchievement : Bool
  deriving DecidableEq, Repr

/-- Model of `new Achievement()`: the default member initializer sets the flag
to `false`. -/
def Achievement.new : Achievement :=
  { unlockedDamageAchievement := false }

/-- Model of `Achievement::OnNotify`. -/
def Achievement.OnNotify (self : Achievement) (e : Event) (cout : Cout) :
    Achievement × Cout :=
  match e.GetType with
  | EventType.PLAYER_DAMAGE_EVENT =>
    if self.unlockedDamageAchievement then
      (self, cout)
    else
      ({ self with unlockedDamageAchievement := true },
        cout ++ ["[ACHIEVEMENT]: You unlocked the 'Take damage' achievement!"])
  | EventType.COIN_COLLECT_EVENT => (self, cout)

/-- An object of a class derived from `Observer`. -/
inductive ObserverObj where
  | ui (obj : UI)
  | achievement (obj : Achievement)
  deriving DecidableEq, Repr

/-- Virtual dispatch of `OnNotify` on the dynamic type of the receiver. -/
def ObserverObj.OnNotify (self : ObserverObj) (e : Event) (cout : Cout) :
    ObserverObj × Cout :=
  match self with
  | .ui obj => (.ui obj, UI.OnNotify e cout)
  | .achievement obj =>
    let r := obj.OnNotify e cout
    (.achievement r.1, r.2)

/-- An `Observer*`. -/
abbrev Ptr := Nat

/-- What the program can observe and change outside the subject: the observer
objects behind the pointers, the console, and the ghost trace of the
`OnNotify` calls made so far (receiver and argument). -/
structure World where
  heap : Ptr → ObserverObj
  cout : Cout
  calls : List (Ptr × Event)

/-- The call `observer->OnNotify(e)`. -/
def World.OnNotify (w : World) (observer : Ptr) (e : Event) : World :=
  let r := (w.heap observer).OnNotify e w.cout
  { heap := Function.update w.heap observer r.1
    cout := r.2
    calls := w.calls ++ [(observer, e)] }

/-! ## Subject -/

/-- Model of `class Subject`: its private member `m_observers`. -/
structure Subject where
  m_observers : List Ptr
  deriving DecidableEq, Repr

/-- Model of the defaulted constructor `Subject()`: the vector starts empty. -/
def Subject.new : Subject :=
  { m_observers := [] }

/-- Model of `Subject::Notify`: the range-for over `m_observers`. -/
def Subject.Notify (self : Subject) (e : Event) (w : World) : World :=
  self.m_observers.foldl (fun w observer => w.OnNotify observer e) w

/-- Model of `Subject::AddObserver`: `push_back`. -/
def Subject.AddObserver (self : Subject) (observer : Ptr) : Subject :=
  { m_observers := self.m_observers ++ [observer] }

/-- Model of `std::find` over a vector, as the index of the iterator it
returns: that of the first element equal to `value`, the length of the vector
(`end()`) when there is none. -/
def find : List Ptr → Ptr → Nat
  | [], _ => 0
  | x :: xs, value => if x = value then 0 else find xs value + 1

/-- Model of `Subject::RemoveObserver`. -/
def Subject.RemoveObserver (self : Subject) (observer : Ptr) (cout : Cout) :
    Subject × Cout :=
  let found := find self.m_observers observer
  if found ≠ self.m_observers.length then
    ({ m_observers := self.m_observers.eraseIdx found },
      LOG_INFO "Removed an observer" cout)
  else
    (self, LOG_WARN "Cannot find observer to remove!" cout)

/-! ## Player -/

/-- Model of `class Player : public Subject`. -/
structure Player extends Subject where
  health : Int
  coins : Int
  deriving DecidableEq, Repr

/-- Model of the implicit default constructor of `Player`: the registry is
empty, `health` and `coins` are not initialised and hold whatever values the
parameters stand for. -/
def Player.new (health coins : Int) : Player :=
  { Subject.new with health := health, coins := coins }

/-- The inherited `AddObserver`, called on a `Player`. -/
def Player.AddObserver (self : Player) (observer : Ptr) : Player :=
  { self with toSubject := self.toSubject.AddObserver observer }

/-- The inherited `RemoveObserver`, called on a `Player`. -/
def Player.RemoveObserver (self : Player) (observer : Ptr) (cout : Cout) :
    Player × Cout :=
  let r := self.toSubject.RemoveObserver observer cout
  ({ self with toSubject := r.1 }, r.2)

/-- Model of `Player::Damage`. -/
def Player.Damage (self : Player) (dmg : Int) (w : World) : Player × World :=
  let self := { self with health := wrapInt (self.health - dmg) }
  (self, self.toSubject.Notify (Event.playerDamage { health := self.health, damage := dmg }) w)

/-- Model of `Player::CollectCoins`. -/
def Player.CollectCoins (self : Player) (amt : Int) (w : World) : Player × World :=
  let self := { self with coins := wrapInt (self.coins + amt) }
  (self, self.toSubject.Notify (Event.coinCollect { coins := amt }) w)

/-! ## Reading the ghost trace -/

/-- The `OnNotify` calls made between two states of the world, oldest first. -/
def World.callsSince (before after : World) : List (Ptr × Event) :=
  after.calls.drop before.calls.length

/-- The events a list of calls hands to the observer at `observer`, in order. -/
def received (observer : Ptr) (calls : List (Ptr × Event)) : List Event :=
  (calls.filter (fun c => c.1 = observer)).map Prod.snd

/-- Model of calling `RemoveObserver(observer)` `n` times in a row. -/
def Subject.RemoveObserverTimes (n : Nat) (self : Subject) (observer : Ptr) (cout : Cout) :
    Subject × Cout :=
  (fun st : Subject × Cout => st.1.RemoveObserver observer st.2)^[n] (self, cout)

/-- Model of handing a sequence of events to one `Achievement` object, one
`OnNotify` call per event, in order. -/
def Achievement.deliver (self : Achievement) (events : List Event) (cout : Cout) :
    Achievement × Cout :=
  events.foldl (fun st e => st.1.OnNotify e st.2) (self, cout)

/-- Least value of an `int`. -/
def INT_MIN : Int := -2147483648

/-- Greatest value of an `int`. -/
def INT_MAX : Int := 2147483647

/-- A heap for examples: a `UI` object at address `0`, a new `Achievement`
object at every other address. -/
def exampleHeap : Ptr → ObserverObj :=
  fun p => if p = 0 then .ui {} else .achievement Achievement.new

/-- A world for examples: `exampleHeap`, nothing written, no call made. -/
def exampleWorld : World :=
  { heap := exampleHeap, cout := [], calls := [] }

/-- A call of one of the two public member functions of `Player` that
broadcast an event, with its argument. -/
inductive PlayerCall where
  | Damage (dmg : Int)
  | CollectCoins (amt : Int)
  deriving DecidableEq, Repr

/-- The effect of one such call on the player and the world. -/
def Player.call (self : Player) (c : PlayerCall) (w : World) : Player × World :=
  match c with
  | .Damage dmg => self.Damage dmg w
  | .CollectCoins amt => self.CollectCoins amt w

/-- The effect of a sequence of such calls, made one after the other. -/
def Player.run (self : Player) (cs : List PlayerCall) (w : World) : Player × World :=
  cs.foldl (fun st c => st.1.call c st.2) (self, w)

/-! ## Lemmas on the registry and the broadcast -/

theorem wrapInt_of_representable (x : Int) (hlo : INT_MIN ≤ x) (hhi : x ≤ INT_MAX) :
    wrapInt x = x := by
  unfold INT_MIN at hlo
  unfold INT_MAX at hhi
  unfold wrapInt
  omega

theorem deliver_unlocked (events : List Event) (cout : Cout) :
    Achievement.deliver { unlockedDamageAchievement := true } events cout
      = ({ unlockedDamageAchievement := true }, cout) := by
  induction events with
  | nil => rfl
  | cons e events ih =>
    unfold Achievement.deliver at ih ⊢
    cases e <;> simpa [Achievement.OnNotify, Event.GetType] using ih

theorem deliver_new (events : List Event) (cout : Cout) :
    Achievement.new.deliver events cout
      = if ∃ e ∈ events, e.GetType = EventType.PLAYER_DAMAGE_EVENT then
          ({ unlockedDamageAchievement := true },
            cout ++ ["[ACHIEVEMENT]: You unlocked the 'Take damage' achievement!"])
        else (Achievement.new, cout) := by
  induction events with
  | nil => simp [Achievement.deliver]
  | cons e events ih =>
    cases e with
    | playerDamage p =>
      have hstep : Achievement.new.deliver (Event.playerDamage p :: events) cout
          = Achievement.deliver { unlockedDamageAchievement := true } events
              (cout ++ ["[ACHIEVEMENT]: You unlocked the 'Take damage' achievement!"]) := by
        simp [Achievement.deliver, Achievement.OnNotify, Event.GetType, Achievement.new]
      rw [hstep, deliver_unlocked]
      simp [Event.GetType]
    | coinCollect c =>
      have hstep : Achievement.new.deliver (Event.coinCollect c :: events) cout
          = Achievement.new.deliver events cout := by
        simp [Achievement.deliver, Achievement.OnNotify, Event.GetType, Achievement.new]
      rw [hstep, ih]
      simp [Event.GetType]

theorem foldl_OnNotify_calls (e : Event) (l : List Ptr) (w : World) :
    (l.foldl (fun w observer => w.OnNotify observer e) w).calls
      = w.calls ++ l.map (fun o => (o, e)) := by
  induction l generalizing w with
  | nil => simp
  | cons o l ih =>
    rw [List.foldl_cons, ih]
    simp [World.OnNotify]

theorem Notify_calls (s : Subject) (e : Event) (w : World) :
    (s.Notify e w).calls = w.calls ++ s.m_observers.map (fun o => (o, e)) :=
  foldl_OnNotify_calls e s.m_observers w

theorem Notify_callsSince (s : Subject) (e : Event) (w : World) :
    w.callsSince (s.Notify e w) = s.m_observers.map (fun o => (o, e)) := by
  simp [World.callsSince, Notify_calls]

theorem foldl_AddObserver (l : List Ptr) (s : Subject) :
    (l.foldl Subject.AddObserver s).m_observers = s.m_observers ++ l := by
  induction l generalizing s with
  | nil => simp
  | cons o l ih => simp [ih, Subject.AddObserver]

theorem find_of_not_mem (r : List Ptr) (o : Ptr) (h : o ∉ r) : find r o = r.length := by
  induction r with
  | nil => simp [find]
  | cons x r ih =>
    have hx : ¬ x = o := fun hxo => h (by simp [hxo])
    have hr : o ∉ r := fun hor => h (by simp [hor])
    simp [find, hx, ih hr]

theorem find_append_cons (before after : List Ptr) (o : Ptr) (h : o ∉ before) :
    find (before ++ o :: after) o = before.length := by
  induction before with
  | nil => simp [find]
  | cons x before ih =>
    have hx : ¬ x = o := fun hxo => h (by simp [hxo])
    have hr : o ∉ before := fun hor => h (by simp [hor])
    simp [find, hx, ih hr]

theorem exists_first_occurrence (r : List Ptr) (o : Ptr) (h : o ∈ r) :
    ∃ before after, r = before ++ o :: after ∧ o ∉ before := by
  induction r with
  | nil => simp at h
  | cons x r ih =>
    by_cases hx : x = o
    · exact ⟨[], r, by simp [hx], by simp⟩
    · have hr : o ∈ r := by
        rcases List.mem_cons.mp h with h1 | h1
        · exact absurd h1.symm hx
        · exact h1
      obtain ⟨before, after, hsplit, hnot⟩ := ih hr
      refine ⟨x :: before, after, by simp [hsplit], ?_⟩
      intro hmem
      rcases List.mem_cons.mp hmem with h1 | h1
      · exact hx h1.symm
      · exact hnot h1

theorem eraseIdx_append_cons (before after : List Ptr) (o : Ptr) :
    (before ++ o :: after).eraseIdx before.length = before ++ after := by
  induction before with
  | nil => simp
  | cons x before ih => simp [ih]

theorem RemoveObserver_append_cons (before after : List Ptr) (o : Ptr) (cout : Cout)
    (h : o ∉ before) :
    Subject.RemoveObserver { m_observers := before ++ o :: after } o cout
      = ({ m_observers := before ++ after }, cout ++ [" * [INFO] Removed an observer"]) := by
  simp [Subject.RemoveObserver, find_append_cons before after o h, eraseIdx_append_cons,
    LOG_INFO]

theorem RemoveObserver_of_not_mem (r : List Ptr) (o : Ptr) (cout : Cout) (h : o ∉ r) :
    Subject.RemoveObserver { m_observers := r } o cout
      = ({ m_observers := r }, cout ++ [" * [WARNING] Cannot find observer to remove!"]) := by
  simp [Subject.RemoveObserver, find_of_not_mem r o h, LOG_WARN]

theorem RemoveObserverTimes_of_not_mem (n : Nat) (r : List Ptr) (o : Ptr) (cout : Cout)
    (h : o ∉ r) :
    Subject.RemoveObserverTimes n { m_observers := r } o cout
      = ({ m_observers := r },
          cout ++ List.replicate n " * [WARNING] Cannot find observer to remove!") := by
  induction n with
  | zero => simp [Subject.RemoveObserverTimes]
  | succ n ih =>
    unfold Subject.RemoveObserverTimes at ih ⊢
    rw [Function.iterate_succ_apply', ih]
    simp [RemoveObserver_of_not_mem r o _ h, List.replicate_succ']

theorem received_map_same (o : Ptr) (e : Event) (l : List Ptr) :
    received o (l.map (fun p => (p, e))) = List.replicate (l.count o) e := by
  induction l with
  | nil => simp [received]
  | cons x l ih =>
    unfold received at ih ⊢
    by_cases hx : x = o
    · simp [hx, ih, List.replicate_succ]
    · have hx2 : ¬ (x == o) = true := by simpa using hx
      simp [hx, hx2, ih, List.count_cons]

/-! ## Registration, broadcast and removal -/

/-- C1: after any sequence of `AddObserver` calls on a new subject the registry
is the sequence of the arguments, and `Notify(e)` calls `OnNotify` with `e` on
exactly these observers, once per registration and in registration order; the
number of calls is the length of the registry, none for an empty one, and the
calls made earlier stay as they were. -/
theorem Notify_calls_each_registration_in_order (observers : List Ptr) (e : Event)
    (w : World) :
    (observers.foldl Subject.AddObserver Subject.new).m_observers = observers ∧
    w.callsSince ((observers.foldl Subject.AddObserver Subject.new).Notify e w)
      = observers.map (fun o => (o, e)) ∧
    (w.callsSince ((observers.foldl Subject.AddObserver Subject.new).Notify e w)).map Prod.fst
      = observers ∧
    (w.callsSince ((observers.foldl Subject.AddObserver Subject.new).Notify e w)).length
      = observers.length ∧
    ((observers.foldl Subject.AddObserver Subject.new).Notify e w).calls
      = w.calls ++ observers.map (fun o => (o, e)) ∧
    w.callsSince (Subject.new.Notify e w) = [] := by
  have hreg : (observers.foldl Subject.AddObserver Subject.new).m_observers = observers := by
    simp [foldl_AddObserver, Subject.new]
  refine ⟨hreg, ?_, ?_, ?_, ?_, ?_⟩
  · rw [Notify_callsSince, hreg]
  · rw [Notify_callsSince, hreg]
    simp [Function.comp_def]
  · rw [Notify_callsSince, hreg]
    simp
  · rw [Notify_calls, hreg]
  · rw [Notify_callsSince]
    simp [Subject.new]

/-- C2: `RemoveObserver(o)` on a registry in which `o` occurs deletes exactly the
first occurrence of `o`: the entries before it and the entries after it are
kept in order, the registry is one entry shorter, and the line
` * [INFO] Removed an observer` is written. -/
theorem RemoveObserver_present (r : List Ptr) (o : Ptr) (cout : Cout) (h : o ∈ r) :
    ∃ before after, r = before ++ o :: after ∧ o ∉ before ∧
      (Subject.RemoveObserver { m_observers := r } o cout).1.m_observers = before ++ after ∧
      (Subject.RemoveObserver { m_observers := r } o cout).1.m_observers.length
        = r.length - 1 ∧
      (Subject.RemoveObserver { m_observers := r } o cout).2
        = cout ++ [" * [INFO] Removed an observer"] := by
  obtain ⟨before, after, hsplit, hnot⟩ := exists_first_occurrence r o h
  refine ⟨before, after, hsplit, hnot, ?_⟩
  subst hsplit
  rw [RemoveObserver_append_cons before after o cout hnot]
  simp

theorem RemoveObserver_present_witness :
    (1 : Ptr) ∈ [2, 1, 3, 1] ∧
    ∃ before after, [2, 1, 3, 1] = before ++ (1 : Ptr) :: after ∧ (1 : Ptr) ∉ before ∧
      (Subject.RemoveObserver { m_observers := [2, 1, 3, 1] } 1 []).1.m_observers
        = before ++ after ∧
      (Subject.RemoveObserver { m_observers := [2, 1, 3, 1] } 1 []).1.m_observers.length
        = [2, 1, 3, 1].length - 1 ∧
      (Subject.RemoveObserver { m_observers := [2, 1, 3, 1] } 1 []).2
        = [] ++ [" * [INFO] Removed an observer"] :=
  ⟨by decide, RemoveObserver_present [2, 1, 3, 1] 1 [] (by decide)⟩

/-- C3: `RemoveObserver(o)` on a registry in which `o` does not occur returns the
registry as it was and writes the single line
` * [WARNING] Cannot find observer to remove!` (so no info line); repeating the
call `n` times leaves the registry as it was and writes that line `n` times. -/
theorem RemoveObserver_absent (r : List Ptr) (o : Ptr) (cout : Cout) (h : o ∉ r) :
    Subject.RemoveObserver { m_observers := r } o cout
      = ({ m_observers := r }, cout ++ [" * [WARNING] Cannot find observer to remove!"]) ∧
    ∀ n : Nat, Subject.RemoveObserverTimes n { m_observers := r } o cout
      = ({ m_observers := r },
          cout ++ List.replicate n " * [WARNING] Cannot find observer to remove!") :=
  ⟨RemoveObserver_of_not_mem r o cout h,
    fun n => RemoveObserverTimes_of_not_mem n r o cout h⟩

theorem RemoveObserver_absent_witness :
    (7 : Ptr) ∉ [2, 1, 3] ∧
    Subject.RemoveObserver { m_observers := [2, 1, 3] } 7 []
      = ({ m_observers := [2, 1, 3] },
          [] ++ [" * [WARNING] Cannot find observer to remove!"]) ∧
    ∀ n : Nat, Subject.RemoveObserverTimes n { m_observers := [2, 1, 3] } 7 []
      = ({ m_observers := [2, 1, 3] },
          [] ++ List.replicate n " * [WARNING] Cannot find observer to remove!") :=
  ⟨by decide, RemoveObserver_absent [2, 1, 3] 7 [] (by decide)⟩

/-- C4: when `o` is not in the registry, after `AddObserver(o)` twice every
`Notify(e)` hands `e` to `o` exactly twice; one `RemoveObserver(o)` then leaves
exactly one registration of `o` (the registry is the old one followed by `o`),
and every `Notify(e)` hands `e` to `o` exactly once. -/
theorem double_registration (r : List Ptr) (o : Ptr) (e : Event) (w : World) (cout : Cout)
    (h : o ∉ r) :
    received o (w.callsSince
      (((Subject.AddObserver { m_observers := r } o).AddObserver o).Notify e w)) = [e, e] ∧
    ((((Subject.AddObserver { m_observers := r } o).AddObserver o).RemoveObserver o
      cout).1).m_observers = r ++ [o] ∧
    ((((Subject.AddObserver { m_observers := r } o).AddObserver o).RemoveObserver o
      cout).1).m_observers.count o = 1 ∧
    received o (w.callsSince
      (((((Subject.AddObserver { m_observers := r } o).AddObserver o).RemoveObserver o
        cout).1).Notify e w)) = [e] := by
  have hcount : r.count o = 0 := List.count_eq_zero_of_not_mem h
  have hrem : ((Subject.AddObserver { m_observers := r } o).AddObserver o).RemoveObserver o cout
      = ({ m_observers := r ++ [o] }, cout ++ [" * [INFO] Removed an observer"]) := by
    have := RemoveObserver_append_cons r [o] o cout h
    simpa [Subject.AddObserver] using this
  refine ⟨?_, ?_, ?_, ?_⟩
  · rw [Notify_callsSince, received_map_same]
    simp [Subject.AddObserver, hcount, List.replicate]
  · rw [hrem]
  · rw [hrem]
    simp [hcount]
  · rw [hrem, Notify_callsSince, received_map_same]
    simp [hcount, List.replicate]

theorem double_registration_witness :
    (1 : Ptr) ∉ [2, 3] ∧
    received 1 (World.callsSince { heap := fun _ => .ui {}, cout := [], calls := [] }
      (((Subject.AddObserver { m_observers := [2, 3] } 1).AddObserver 1).Notify
        (Event.coinCollect { coins := 4 })
        { heap := fun _ => .ui {}, cout := [], calls := [] }))
      = [Event.coinCollect { coins := 4 }, Event.coinCollect { coins := 4 }] ∧
    ((((Subject.AddObserver { m_observers := [2, 3] } 1).AddObserver 1).RemoveObserver 1
      []).1).m_observers = [2, 3] ++ [1] ∧
    ((((Subject.AddObserver { m_observers := [2, 3] } 1).AddObserver 1).RemoveObserver 1
      []).1).m_observers.count 1 = 1 ∧
    received 1 (World.callsSince { heap := fun _ => .ui {}, cout := [], calls := [] }
      (((((Subject.AddObserver { m_observers := [2, 3] } 1).AddObserver 1).RemoveObserver 1
        []).1).Notify (Event.coinCollect { coins := 4 })
        { heap := fun _ => .ui {}, cout := [], calls := [] }))
      = [Event.coinCollect { coins := 4 }] :=
  ⟨by decide, double_registration [2, 3] 1 (Event.coinCollect { coins := 4 })
    { heap := fun _ => .ui {}, cout := [], calls := [] } [] (by decide)⟩

/-! ## Player -/

/-- C5: when `h - d` is representable as an `int`, `Damage(d)` on a player of
health `h` sets the health to exactly `h - d`, without clamping, and hands to
every registered observer, once per registration and in registration order,
one `PlayerDamageEvent` whose `health` is the new health `h - d` and whose
`damage` is `d`. -/
theorem Damage_decrements_then_broadcasts (p : Player) (d : Int) (w : World)
    (hlo : INT_MIN ≤ p.health - d) (hhi : p.health - d ≤ INT_MAX) :
    (p.Damage d w).1.health = p.health - d ∧
    w.callsSince (p.Damage d w).2
      = p.m_observers.map
          (fun o => (o, Event.playerDamage { health := p.health - d, damage := d })) ∧
    ∀ o : Ptr, received o (w.callsSince (p.Damage d w).2)
      = List.replicate (p.m_observers.count o)
          (Event.playerDamage { health := p.health - d, damage := d }) := by
  have hw := wrapInt_of_representable (p.health - d) hlo hhi
  have hcalls : w.callsSince (p.Damage d w).2
      = p.m_observers.map
          (fun o => (o, Event.playerDamage { health := p.health - d, damage := d })) := by
    simp [Player.Damage, Notify_callsSince, hw]
  refine ⟨by simp [Player.Damage, hw], hcalls, ?_⟩
  intro o
  rw [hcalls, received_map_same]

theorem Damage_decrements_then_broadcasts_witness :
    INT_MIN ≤ (3 : Int) - 5 ∧ (3 : Int) - 5 ≤ INT_MAX ∧
    ((Player.Damage { m_observers := [0, 1], health := 3, coins := 0 } 5
      { heap := fun _ => .ui {}, cout := [], calls := [] }).1.health = 3 - 5 ∧
    World.callsSince { heap := fun _ => .ui {}, cout := [], calls := [] }
      (Player.Damage { m_observers := [0, 1], health := 3, coins := 0 } 5
        { heap := fun _ => .ui {}, cout := [], calls := [] }).2
      = ([0, 1] : List Ptr).map
          (fun o => (o, Event.playerDamage { health := 3 - 5, damage := 5 })) ∧
    ∀ o : Ptr, received o
      (World.callsSince { heap := fun _ => .ui {}, cout := [], calls := [] }
        (Player.Damage { m_observers := [0, 1], health := 3, coins := 0 } 5
          { heap := fun _ => .ui {}, cout := [], calls := [] }).2)
      = List.replicate (([0, 1] : List Ptr).count o)
          (Event.playerDamage { health := 3 - 5, damage := 5 })) :=
  ⟨by decide, by decide,
    Damage_decrements_then_broadcasts { m_observers := [0, 1], health := 3, coins := 0 } 5
      { heap := fun _ => .ui {}, cout := [], calls := [] } (by decide) (by decide)⟩

/-- C6: when `c + a` is representable as an `int`, `CollectCoins(a)` on a player
with `c` coins sets the coins to exactly `c + a` and hands to every registered
observer, once per registration and in registration order, one
`CoinCollectEvent` whose `coins` is the amount `a`, not the total `c + a`. -/
theorem CollectCoins_increments_then_broadcasts (p : Player) (a : Int) (w : World)
    (hlo : INT_MIN ≤ p.coins + a) (hhi : p.coins + a ≤ INT_MAX) :
    (p.CollectCoins a w).1.coins = p.coins + a ∧
    w.callsSince (p.CollectCoins a w).2
      = p.m_observers.map (fun o => (o, Event.coinCollect { coins := a })) ∧
    ∀ o : Ptr, received o (w.callsSince (p.CollectCoins a w).2)
      = List.replicate (p.m_observers.count o) (Event.coinCollect { coins := a }) := by
  have hw := wrapInt_of_representable (p.coins + a) hlo hhi
  have hcalls : w.callsSince (p.CollectCoins a w).2
      = p.m_observers.map (fun o => (o, Event.coinCollect { coins := a })) := by
    simp [Player.CollectCoins, Notify_callsSince]
  refine ⟨by simp [Player.CollectCoins, hw], hcalls, ?_⟩
  intro o
  rw [hcalls, received_map_same]

theorem CollectCoins_increments_then_broadcasts_witness :
    INT_MIN ≤ (10 : Int) + 4 ∧ (10 : Int) + 4 ≤ INT_MAX ∧
    ((Player.CollectCoins { m_observers := [0, 1], health := 3, coins := 10 } 4
      { heap := fun _ => .ui {}, cout := [], calls := [] }).1.coins = 10 + 4 ∧
    World.callsSince { heap := fun _ => .ui {}, cout := [], calls := [] }
      (Player.CollectCoins { m_observers := [0, 1], health := 3, coins := 10 } 4
        { heap := fun _ => .ui {}, cout := [], calls := [] }).2
      = ([0, 1] : List Ptr).map (fun o => (o, Event.coinCollect { coins := 4 })) ∧
    ∀ o : Ptr, received o
      (World.callsSince { heap := fun _ => .ui {}, cout := [], calls := [] }
        (Player.CollectCoins { m_observers := [0, 1], health := 3, coins := 10 } 4
          { heap := fun _ => .ui {}, cout := [], calls := [] }).2)
      = List.replicate (([0, 1] : List Ptr).count o) (Event.coinCollect { coins := 4 })) :=
  ⟨by decide, by decide,
    CollectCoins_increments_then_broadcasts
      { m_observers := [0, 1], health := 3, coins := 10 } 4
      { heap := fun _ => .ui {}, cout := [], calls := [] } (by decide) (by decide)⟩

/-! ## Observers -/

/-- C7: a new `Achievement` that is handed any finite sequence of events writes
the unlock line exactly once when the sequence holds a `PLAYER_DAMAGE_EVENT`
and writes nothing otherwise, however many damage events follow; the line is
written at the first damage event: nothing is written by the events before
it, and the line is there right after it. -/
theorem Achievement_unlocks_once (events : List Event) (cout : Cout) :
    (Achievement.new.deliver events cout).2
      = cout ++
          (if ∃ e ∈ events, e.GetType = EventType.PLAYER_DAMAGE_EVENT then
            ["[ACHIEVEMENT]: You unlocked the 'Take damage' achievement!"]
          else []) ∧
    ((Achievement.new.deliver events cout).2.drop cout.length).count
        "[ACHIEVEMENT]: You unlocked the 'Take damage' achievement!"
      = (if ∃ e ∈ events, e.GetType = EventType.PLAYER_DAMAGE_EVENT then 1 else 0) ∧
    ∀ (before after : List Event) (e : Event), events = before ++ e :: after →
      (∀ x ∈ before, x.GetType ≠ EventType.PLAYER_DAMAGE_EVENT) →
      e.GetType = EventType.PLAYER_DAMAGE_EVENT →
      (Achievement.new.deliver before cout).2 = cout ∧
      (Achievement.new.deliver (before ++ [e]) cout).2
        = cout ++ ["[ACHIEVEMENT]: You unlocked the 'Take damage' achievement!"] := by
  refine ⟨?_, ?_, ?_⟩
  · rw [deliver_new]
    split <;> simp
  · rw [deliver_new]
    split <;> simp
  · intro before after e _ hbefore he
    constructor
    · rw [deliver_new, if_neg]
      rintro ⟨x, hx, hxt⟩
      exact hbefore x hx hxt
    · rw [deliver_new, if_pos]
      exact ⟨e, by simp, he⟩

theorem Achievement_unlocks_once_witness :
    (Achievement.new.deliver
        [Event.coinCollect { coins := 1 }, Event.playerDamage { health := 5, damage := 5 },
          Event.playerDamage { health := 2, damage := 3 }] []).2
      = ["[ACHIEVEMENT]: You unlocked the 'Take damage' achievement!"] ∧
    (Achievement.new.deliver [Event.coinCollect { coins := 1 }] []).2 = [] ∧
    (Achievement.new.deliver
        ([Event.coinCollect { coins := 1 }]
          ++ [Event.playerDamage { health := 5, damage := 5 }]) []).2
      = [] ++ ["[ACHIEVEMENT]: You unlocked the 'Take damage' achievement!"] :=
  ⟨by
      have h := (Achievement_unlocks_once
        [Event.coinCollect { coins := 1 }, Event.playerDamage { health := 5, damage := 5 },
          Event.playerDamage { health := 2, damage := 3 }] []).1
      simpa [Event.GetType] using h,
    (Achievement_unlocks_once
        [Event.coinCollect { coins := 1 }, Event.playerDamage { health := 5, damage := 5 },
          Event.playerDamage { health := 2, damage := 3 }] []).2.2
      [Event.coinCollect { coins := 1 }] [Event.playerDamage { health := 2, damage := 3 }]
      (Event.playerDamage { health := 5, damage := 5 }) rfl (by decide) rfl⟩

/-- C8: for either payload class `T`, `EventCast<T>(e)` returns the payload of
`e` itself and writes nothing when `GetType` of `e` is the kind of `T`, and
returns the null pointer and writes ` * [WARNING] Event cast failed for event`
when it is not. -/
theorem EventCast_follows_GetType (e : Event) (cout : Cout) :
    (e.GetType = EventType.PLAYER_DAMAGE_EVENT →
      ∃ p : PlayerDamageEvent, e = Event.playerDamage p ∧
        Observer.EventCast PlayerDamageEvent e cout = (some p, cout)) ∧
    (e.GetType ≠ EventType.PLAYER_DAMAGE_EVENT →
      Observer.EventCast PlayerDamageEvent e cout
        = (none, cout ++ [" * [WARNING] Event cast failed for event"])) ∧
    (e.GetType = EventType.COIN_COLLECT_EVENT →
      ∃ c : CoinCollectEvent, e = Event.coinCollect c ∧
        Observer.EventCast CoinCollectEvent e cout = (some c, cout)) ∧
    (e.GetType ≠ EventType.COIN_COLLECT_EVENT →
      Observer.EventCast CoinCollectEvent e cout
        = (none, cout ++ [" * [WARNING] Event cast failed for event"])) := by
  cases e with
  | playerDamage p =>
    simp [Event.GetType, Observer.EventCast, DynamicCast.dynamic_cast, LOG_WARN]
  | coinCollect c =>
    simp [Event.GetType, Observer.EventCast, DynamicCast.dynamic_cast, LOG_WARN]

theorem EventCast_follows_GetType_witness :
    (Event.playerDamage { health := 7, damage := 3 }).GetType
      = EventType.PLAYER_DAMAGE_EVENT ∧
    (Event.playerDamage { health := 7, damage := 3 }).GetType
      ≠ EventType.COIN_COLLECT_EVENT ∧
    (∃ p : PlayerDamageEvent, Event.playerDamage { health := 7, damage := 3 }
        = Event.playerDamage p ∧
      Observer.EventCast PlayerDamageEvent (Event.playerDamage { health := 7, damage := 3 }) []
        = (some p, [])) ∧
    Observer.EventCast CoinCollectEvent (Event.playerDamage { health := 7, damage := 3 }) []
      = (none, [] ++ [" * [WARNING] Event cast failed for event"]) :=
  ⟨rfl, by decide,
    (EventCast_follows_GetType (Event.playerDamage { health := 7, damage := 3 }) []).1 rfl,
    (EventCast_follows_GetType (Event.playerDamage { health := 7, damage := 3 }) []).2.2.2
      (by decide)⟩

/-! ## The run of `main` -/

theorem UI_OnNotify_playerDamage (health damage : Int) (cout : Cout) :
    UI.OnNotify (Event.playerDamage { health := health, damage := damage }) cout
      = cout ++ ["[UI]: You have " ++ toString health ++ " health!"] := by
  simp [UI.OnNotify, Event.GetType, Observer.EventCast, DynamicCast.dynamic_cast,
    UI.HealthPopUp]

theorem Notify_ui_then_achievement (ui ach : Ptr) (a : Achievement) (e : Event) (w : World)
    (hui : w.heap ui = .ui {}) (hach : w.heap ach = .achievement a) :
    (Subject.Notify { m_observers := [ui, ach] } e w).cout
      = (a.OnNotify e (UI.OnNotify e w.cout)).2 ∧
    (Subject.Notify { m_observers := [ui, ach] } e w).heap ui = .ui {} ∧
    (Subject.Notify { m_observers := [ui, ach] } e w).heap ach
      = .achievement (a.OnNotify e (UI.OnNotify e w.cout)).1 := by
  have hne : ach ≠ ui := by
    intro h
    rw [h, hui] at hach
    cases hach
  have hne2 : ui ≠ ach := fun h => hne h.symm
  simp [Subject.Notify, World.OnNotify, ObserverObj.OnNotify, hui, hach, hne, hne2,
    Function.update]

/-- C9, as amended: for every initial health `H` of type `int` such that `H - 8`
is representable as an `int`, a new player that registers a `UI` object and
then a new `Achievement` object and calls `Damage(5)` and then `Damage(3)`
writes exactly `[UI]: You have H-5 health!` and the unlock line in the first
call, and exactly `[UI]: You have H-8 health!` in the second, and ends with
health `H - 8`. -/
theorem main_Damage_trace (H coins : Int) (ui ach : Ptr) (w : World)
    (hui : w.heap ui = .ui {}) (hach : w.heap ach = .achievement Achievement.new)
    (hlo : INT_MIN ≤ H - 8) (hhi : H ≤ INT_MAX) :
    ((((Player.new H coins).AddObserver ui).AddObserver ach).Damage 5 w).2.cout
      = w.cout ++
          ["[UI]: You have " ++ toString (H - 5) ++ " health!",
            "[ACHIEVEMENT]: You unlocked the 'Take damage' achievement!"] ∧
    (((((Player.new H coins).AddObserver ui).AddObserver ach).Damage 5 w).1.Damage 3
        ((((Player.new H coins).AddObserver ui).AddObserver ach).Damage 5 w).2).2.cout
      = w.cout ++
          ["[UI]: You have " ++ toString (H - 5) ++ " health!",
            "[ACHIEVEMENT]: You unlocked the 'Take damage' achievement!",
            "[UI]: You have " ++ toString (H - 8) ++ " health!"] ∧
    (((((Player.new H coins).AddObserver ui).AddObserver ach).Damage 5 w).1.Damage 3
        ((((Player.new H coins).AddObserver ui).AddObserver ach).Damage 5 w).2).1.health
      = H - 8 := by
  have h5 : wrapInt (H - 5) = H - 5 :=
    wrapInt_of_representable (H - 5) (by unfold INT_MIN at *; omega)
      (by unfold INT_MAX at *; omega)
  have h8 : wrapInt (H - 5 - 3) = H - 8 := by
    rw [wrapInt_of_representable (H - 5 - 3) (by unfold INT_MIN at *; omega)
      (by unfold INT_MAX at *; omega)]
    omega
  have hfirst : (((Player.new H coins).AddObserver ui).AddObserver ach).Damage 5 w
      = ({ m_observers := [ui, ach], health := H - 5, coins := coins },
          Subject.Notify { m_observers := [ui, ach] }
            (Event.playerDamage { health := H - 5, damage := 5 }) w) := by
    simp [Player.Damage, Player.AddObserver, Player.new, Subject.new, Subject.AddObserver, h5]
  obtain ⟨hc1, hu1, ha1⟩ := Notify_ui_then_achievement ui ach Achievement.new
    (Event.playerDamage { health := H - 5, damage := 5 }) w hui hach
  rw [UI_OnNotify_playerDamage] at hc1 ha1
  have hc1' : (Subject.Notify { m_observers := [ui, ach] }
      (Event.playerDamage { health := H - 5, damage := 5 }) w).cout
      = w.cout ++
          ["[UI]: You have " ++ toString (H - 5) ++ " health!",
            "[ACHIEVEMENT]: You unlocked the 'Take damage' achievement!"] := by
    rw [hc1]
    simp [Achievement.OnNotify, Event.GetType, Achievement.new]
  have ha1' : (Subject.Notify { m_observers := [ui, ach] }
      (Event.playerDamage { health := H - 5, damage := 5 }) w).heap ach
      = .achievement { unlockedDamageAchievement := true } := by
    rw [ha1]
    simp [Achievement.OnNotify, Event.GetType, Achievement.new]
  obtain ⟨hc2, -, -⟩ := Notify_ui_then_achievement ui ach
    { unlockedDamageAchievement := true }
    (Event.playerDamage { health := H - 8, damage := 3 })
    (Subject.Notify { m_observers := [ui, ach] }
      (Event.playerDamage { health := H - 5, damage := 5 }) w) hu1 ha1'
  rw [UI_OnNotify_playerDamage, hc1'] at hc2
  rw [hfirst]
  refine ⟨hc1', ?_, ?_⟩
  · simp only [Player.Damage, h8]
    rw [hc2]
    simp [Achievement.OnNotify, Event.GetType]
  · simp [Player.Damage, h8]

theorem main_Damage_trace_witness :
    exampleWorld.heap 0 = .ui {} ∧ exampleWorld.heap 1 = .achievement Achievement.new ∧
    INT_MIN ≤ (100 : Int) - 8 ∧ (100 : Int) ≤ INT_MAX ∧
    (((((Player.new 100 0).AddObserver 0).AddObserver 1).Damage 5 exampleWorld).2.cout
      = exampleWorld.cout ++
          ["[UI]: You have " ++ toString ((100 : Int) - 5) ++ " health!",
            "[ACHIEVEMENT]: You unlocked the 'Take damage' achievement!"] ∧
    (((((Player.new 100 0).AddObserver 0).AddObserver 1).Damage 5 exampleWorld).1.Damage 3
        ((((Player.new 100 0).AddObserver 0).AddObserver 1).Damage 5 exampleWorld).2).2.cout
      = exampleWorld.cout ++
          ["[UI]: You have " ++ toString ((100 : Int) - 5) ++ " health!",
            "[ACHIEVEMENT]: You unlocked the 'Take damage' achievement!",
            "[UI]: You have " ++ toString ((100 : Int) - 8) ++ " health!"] ∧
    (((((Player.new 100 0).AddObserver 0).AddObserver 1).Damage 5 exampleWorld).1.Damage 3
        ((((Player.new 100 0).AddObserver 0).AddObserver 1).Damage 5 exampleWorld).2).1.health
      = 100 - 8) :=
  ⟨rfl, rfl, by decide, by decide,
    main_Damage_trace 100 0 0 1 exampleWorld rfl rfl (by decide) (by decide)⟩

/-- C9 as stated fails for an initial health within 8 of the least `int`: from
`H = -2147483648` the first `Damage(5)` overflows, the lines written carry the
wrapped values `2147483643` and `2147483640`, not `H - 5` and `H - 8`, and the
final health is not `H - 8`. -/
theorem main_Damage_trace_fails_at_INT_MIN :
    (((((Player.new (-2147483648) 0).AddObserver 0).AddObserver 1).Damage 5
          exampleWorld).1.Damage 3
        ((((Player.new (-2147483648) 0).AddObserver 0).AddObserver 1).Damage 5
          exampleWorld).2).2.cout
      = ["[UI]: You have 2147483643 health!",
          "[ACHIEVEMENT]: You unlocked the 'Take damage' achievement!",
          "[UI]: You have 2147483640 health!"] ∧
    (((((Player.new (-2147483648) 0).AddObserver 0).AddObserver 1).Damage 5
          exampleWorld).1.Damage 3
        ((((Player.new (-2147483648) 0).AddObserver 0).AddObserver 1).Damage 5
          exampleWorld).2).2.cout
      ≠ exampleWorld.cout ++
          ["[UI]: You have " ++ toString ((-2147483648 : Int) - 5) ++ " health!",
            "[ACHIEVEMENT]: You unlocked the 'Take damage' achievement!",
            "[UI]: You have " ++ toString ((-2147483648 : Int) - 8) ++ " health!"] ∧
    (((((Player.new (-2147483648) 0).AddObserver 0).AddObserver 1).Damage 5
          exampleWorld).1.Damage 3
        ((((Player.new (-2147483648) 0).AddObserver 0).AddObserver 1).Damage 5
          exampleWorld).2).1.health
      ≠ -2147483648 - 8 := by
  refine ⟨by decide, by decide, by decide⟩

/-- C10: for any two observers `ui` and `ach`, distinct ones in particular, from
the registry `[ui, ach]` the calls `RemoveObserver(ui)`, `RemoveObserver(ach)`,
`RemoveObserver(ui)` write exactly the lines ` * [INFO] Removed an observer`,
` * [INFO] Removed an observer`, ` * [WARNING] Cannot find observer to remove!`
and leave the registry empty. -/
theorem main_RemoveObserver_trace (ui ach : Ptr) (cout : Cout) :
    (Subject.RemoveObserver { m_observers := [ui, ach] } ui cout)
      = ({ m_observers := [ach] }, cout ++ [" * [INFO] Removed an observer"]) ∧
    (Subject.RemoveObserver { m_observers := [ach] } ach
        (cout ++ [" * [INFO] Removed an observer"]))
      = ({ m_observers := [] },
          cout ++ [" * [INFO] Removed an observer", " * [INFO] Removed an observer"]) ∧
    ((((Subject.RemoveObserver { m_observers := [ui, ach] } ui cout).1.RemoveObserver ach
          (Subject.RemoveObserver { m_observers := [ui, ach] } ui cout).2).1).RemoveObserver ui
        (((Subject.RemoveObserver { m_observers := [ui, ach] } ui cout).1.RemoveObserver ach
          (Subject.RemoveObserver { m_observers := [ui, ach] } ui cout).2).2))
      = ({ m_observers := [] },
          cout ++ [" * [INFO] Removed an observer", " * [INFO] Removed an observer",
            " * [WARNING] Cannot find observer to remove!"]) := by
  have h1 : Subject.RemoveObserver { m_observers := [ui, ach] } ui cout
      = ({ m_observers := [ach] }, cout ++ [" * [INFO] Removed an observer"]) := by
    simpa using RemoveObserver_append_cons [] [ach] ui cout (by simp)
  have h2 : Subject.RemoveObserver { m_observers := [ach] } ach
        (cout ++ [" * [INFO] Removed an observer"])
      = ({ m_observers := [] },
          cout ++ [" * [INFO] Removed an observer", " * [INFO] Removed an observer"]) := by
    simpa using RemoveObserver_append_cons [] [] ach
      (cout ++ [" * [INFO] Removed an observer"]) (by simp)
  refine ⟨h1, h2, ?_⟩
  rw [h1]
  simp only []
  rw [h2]
  simpa using RemoveObserver_of_not_mem [] ui
    (cout ++ [" * [INFO] Removed an observer", " * [INFO] Removed an observer"]) (by simp)

/-! ## Observers: what `UI` prints and how the `Achievement` flag moves -/

/-- C11: a `UI` observer that is handed a `PlayerDamageEvent` with health `h`
writes the single line `[UI]: You have h health!`, made from the `health`
member and not from `damage`; handed a `CoinCollectEvent` with `c` coins it
writes the single line `[UI]: You got c coins!`; it writes nothing else, and
the `UI` object stays as it was. -/
theorem UI_OnNotify_prints_one_line (cout : Cout) :
    (∀ h d : Int, UI.OnNotify (Event.playerDamage { health := h, damage := d }) cout
      = cout ++ ["[UI]: You have " ++ toString h ++ " health!"]) ∧
    (∀ c : Int, UI.OnNotify (Event.coinCollect { coins := c }) cout
      = cout ++ ["[UI]: You got " ++ toString c ++ " coins!"]) ∧
    (∀ (u : UI) (h d : Int),
      ObserverObj.OnNotify (.ui u) (Event.playerDamage { health := h, damage := d }) cout
        = (.ui u, cout ++ ["[UI]: You have " ++ toString h ++ " health!"])) ∧
    (∀ (u : UI) (c : Int),
      ObserverObj.OnNotify (.ui u) (Event.coinCollect { coins := c }) cout
        = (.ui u, cout ++ ["[UI]: You got " ++ toString c ++ " coins!"])) ∧
    UI.OnNotify (Event.playerDamage { health := 95, damage := 5 }) cout
      = cout ++ ["[UI]: You have 95 health!"] := by
  have hd : ∀ h d : Int, UI.OnNotify (Event.playerDamage { health := h, damage := d }) cout
      = cout ++ ["[UI]: You have " ++ toString h ++ " health!"] := by
    intro h d
    simp [UI.OnNotify, Event.GetType, Observer.EventCast, DynamicCast.dynamic_cast,
      UI.HealthPopUp]
  have hc : ∀ c : Int, UI.OnNotify (Event.coinCollect { coins := c }) cout
      = cout ++ ["[UI]: You got " ++ toString c ++ " coins!"] := by
    intro c
    simp [UI.OnNotify, Event.GetType, Observer.EventCast, DynamicCast.dynamic_cast,
      UI.CoinPopUp]
  refine ⟨hd, hc, ?_, ?_, ?_⟩
  · intro u h d
    simp [ObserverObj.OnNotify, hd]
  · intro u c
    simp [ObserverObj.OnNotify, hc]
  · rw [hd]
    rfl

/-- C12: the flag of a new `Achievement` is `false`; `OnNotify` never takes the
flag from `true` to `false`, whatever the event; and on a `COIN_COLLECT_EVENT`
it leaves the flag as it was and writes nothing. -/
theorem Achievement_flag_monotonic :
    Achievement.new.unlockedDamageAchievement = false ∧
    (∀ (a : Achievement) (e : Event) (cout : Cout), a.unlockedDamageAchievement = true →
      (a.OnNotify e cout).1.unlockedDamageAchievement = true) ∧
    (∀ (a : Achievement) (e : Event) (cout : Cout),
      e.GetType = EventType.COIN_COLLECT_EVENT → a.OnNotify e cout = (a, cout)) := by
  refine ⟨rfl, ?_, ?_⟩
  · intro a e cout ha
    cases e <;> simp [Achievement.OnNotify, Event.GetType, ha]
  · intro a e cout he
    cases e with
    | playerDamage p => simp [Event.GetType] at he
    | coinCollect c => simp [Achievement.OnNotify, Event.GetType]

theorem Achievement_flag_monotonic_witness :
    (Achievement.mk true).unlockedDamageAchievement = true ∧
    (Event.coinCollect { coins := 2 }).GetType = EventType.COIN_COLLECT_EVENT ∧
    ((Achievement.mk true).OnNotify (Event.playerDamage { health := 1, damage := 2 })
      []).1.unlockedDamageAchievement = true ∧
    Achievement.new.OnNotify (Event.coinCollect { coins := 2 }) [] = (Achievement.new, []) :=
  ⟨rfl, rfl,
    Achievement_flag_monotonic.2.1 (Achievement.mk true)
      (Event.playerDamage { health := 1, damage := 2 }) [] rfl,
    Achievement_flag_monotonic.2.2 Achievement.new (Event.coinCollect { coins := 2 }) [] rfl⟩

/-! ## What each operation leaves alone -/

theorem call_toSubject (p : Player) (c : PlayerCall) (w : World) :
    (p.call c w).1.toSubject = p.toSubject := by
  cases c <;> rfl

theorem run_toSubject (cs : List PlayerCall) (p : Player) (w : World) :
    (p.run cs w).1.toSubject = p.toSubject := by
  induction cs generalizing p w with
  | nil => rfl
  | cons c cs ih =>
    have hstep : p.run (c :: cs) w = (p.call c w).1.run cs (p.call c w).2 := rfl
    rw [hstep, ih, call_toSubject]

/-- C13: a new `Subject` and a new `Player` have an empty registry; `Damage`,
`CollectCoins`, and any sequence of them, return the registry as it was, same
entries in the same order; and `Notify` does not touch it either: a broadcast
made right after another broadcast, or right after `Damage`, still calls
exactly the entries of the registry, in order. -/
theorem registry_kept_by_Notify_Damage_CollectCoins (p : Player) (amount : Int)
    (cs : List PlayerCall) (e e2 : Event) (w : World) :
    Subject.new.m_observers = [] ∧
    (∀ health coins : Int, (Player.new health coins).m_observers = []) ∧
    (p.Damage amount w).1.m_observers = p.m_observers ∧
    (p.CollectCoins amount w).1.m_observers = p.m_observers ∧
    (p.run cs w).1.m_observers = p.m_observers ∧
    (p.toSubject.Notify e w).callsSince (p.toSubject.Notify e2 (p.toSubject.Notify e w))
      = p.m_observers.map (fun o => (o, e2)) ∧
    (p.Damage amount w).2.callsSince
        ((p.Damage amount w).1.toSubject.Notify e2 (p.Damage amount w).2)
      = p.m_observers.map (fun o => (o, e2)) := by
  refine ⟨rfl, fun _ _ => rfl, rfl, rfl, ?_, ?_, ?_⟩
  · rw [run_toSubject]
  · rw [Notify_callsSince]
  · rw [Notify_callsSince]
    rfl

/-- C17: `Damage` leaves the coins and the registry as they were, `CollectCoins`
leaves the health and the registry as they were, and `AddObserver` and
`RemoveObserver` leave both the health and the coins as they were. -/
theorem Player_members_kept (p : Player) (amount : Int) (o : Ptr) (w : World)
    (cout : Cout) :
    (p.Damage amount w).1.coins = p.coins ∧
    (p.Damage amount w).1.toSubject = p.toSubject ∧
    (p.CollectCoins amount w).1.health = p.health ∧
    (p.CollectCoins amount w).1.toSubject = p.toSubject ∧
    (p.AddObserver o).health = p.health ∧
    (p.AddObserver o).coins = p.coins ∧
    (p.RemoveObserver o cout).1.health = p.health ∧
    (p.RemoveObserver o cout).1.coins = p.coins := by
  refine ⟨rfl, rfl, rfl, rfl, rfl, rfl, rfl, rfl⟩

/-! ## Adding and then removing; removing a single registration -/

theorem AddObserver_RemoveObserver_first (before after : List Ptr) (o : Ptr) (cout : Cout)
    (h : o ∉ before) :
    (Subject.AddObserver { m_observers := before ++ o :: after } o).RemoveObserver o cout
      = ({ m_observers := before ++ after ++ [o] },
          cout ++ [" * [INFO] Removed an observer"]) := by
  have := RemoveObserver_append_cons before (after ++ [o]) o cout h
  simpa [Subject.AddObserver] using this

/-- C14: when `o` does not occur in the registry `r`, `AddObserver(o)` followed
by `RemoveObserver(o)` gives back exactly `r`. Without that hypothesis the
removal deletes the first, earlier registration of `o` and keeps the one just
appended, so the round trip can fail: `[a, b]` with `a ≠ b` becomes `[b, a]`. -/
theorem AddObserver_RemoveObserver_roundtrip (r : List Ptr) (o : Ptr) (cout : Cout) :
    (o ∉ r →
      ((Subject.AddObserver { m_observers := r } o).RemoveObserver o cout).1
        = { m_observers := r }) ∧
    (∀ before after : List Ptr, o ∉ before → r = before ++ o :: after →
      ((Subject.AddObserver { m_observers := r } o).RemoveObserver o cout).1
        = { m_observers := before ++ after ++ [o] }) ∧
    (∀ a b : Ptr, a ≠ b →
      ((Subject.AddObserver { m_observers := [a, b] } a).RemoveObserver a cout).1
        = { m_observers := [b, a] } ∧
      ((Subject.AddObserver { m_observers := [a, b] } a).RemoveObserver a cout).1
        ≠ { m_observers := [a, b] }) := by
  refine ⟨?_, ?_, ?_⟩
  · intro h
    have := RemoveObserver_append_cons r [] o cout h
    simp [Subject.AddObserver, this]
  · intro before after h hr
    subst hr
    rw [AddObserver_RemoveObserver_first before after o cout h]
  · intro a b hab
    have := AddObserver_RemoveObserver_first [] [b] a cout (by simp)
    simp only [List.nil_append, List.singleton_append] at this
    rw [this]
    refine ⟨rfl, ?_⟩
    intro heq
    have h2 : [b, a] = [a, b] := congrArg Subject.m_observers heq
    simp at h2
    exact hab h2.1.symm

theorem AddObserver_RemoveObserver_roundtrip_witness :
    (7 : Ptr) ∉ [2, 1, 3] ∧ (1 : Ptr) ≠ 2 ∧
    ((Subject.AddObserver { m_observers := [2, 1, 3] } 7).RemoveObserver 7 []).1
      = { m_observers := [2, 1, 3] } ∧
    (((Subject.AddObserver { m_observers := [1, 2] } 1).RemoveObserver 1 []).1
        = { m_observers := [2, 1] } ∧
      ((Subject.AddObserver { m_observers := [1, 2] } 1).RemoveObserver 1 []).1
        ≠ { m_observers := [1, 2] }) :=
  ⟨by decide, by decide,
    (AddObserver_RemoveObserver_roundtrip [2, 1, 3] 7 []).1 (by decide),
    (AddObserver_RemoveObserver_roundtrip [2, 1, 3] 7 []).2.2 1 2 (by decide)⟩

theorem RemoveObserver_of_count_one (r : List Ptr) (o : Ptr) (cout : Cout)
    (h : r.count o = 1) :
    (Subject.RemoveObserver { m_observers := r } o cout).1.m_observers
      = r.filter (fun q => q ≠ o) := by
  have hmem : o ∈ r := List.count_pos_iff.mp (by omega)
  obtain ⟨before, after, hsplit, hnot⟩ := exists_first_occurrence r o hmem
  subst hsplit
  have hb : before.count o = 0 := List.count_eq_zero_of_not_mem hnot
  have hafter : o ∉ after := by
    intro hin
    have hpos : 0 < after.count o := List.count_pos_iff.mpr hin
    simp [List.count_append, hb] at h
    omega
  rw [RemoveObserver_append_cons before after o cout hnot]
  have hfb : before.filter (fun q => q ≠ o) = before :=
    List.filter_eq_self.mpr (fun q hq => by
      have : q ≠ o := fun hqo => hnot (hqo ▸ hq)
      simpa using this)
  have hfa : after.filter (fun q => q ≠ o) = after :=
    List.filter_eq_self.mpr (fun q hq => by
      have : q ≠ o := fun hqo => hafter (hqo ▸ hq)
      simpa using this)
  show before ++ after = List.filter (fun q => q ≠ o) (before ++ o :: after)
  rw [List.filter_append, List.filter_cons_of_neg (by simp), hfb, hfa]

/-- C15: when `o` occurs exactly once in the registry, after `RemoveObserver(o)`
a `Notify` makes no call to `o`, and its calls are those it made before the
removal with the one to `o` left out: every other observer is called as often
as before, in the same relative order. -/
theorem RemoveObserver_single_registration (r : List Ptr) (o : Ptr) (e : Event) (w : World)
    (cout : Cout) (h : r.count o = 1) :
    received o
        (w.callsSince ((Subject.RemoveObserver { m_observers := r } o cout).1.Notify e w))
      = [] ∧
    w.callsSince ((Subject.RemoveObserver { m_observers := r } o cout).1.Notify e w)
      = (w.callsSince (Subject.Notify { m_observers := r } e w)).filter
          (fun c => c.1 ≠ o) ∧
    ∀ q : Ptr, q ≠ o →
      received q
          (w.callsSince ((Subject.RemoveObserver { m_observers := r } o cout).1.Notify e w))
        = received q (w.callsSince (Subject.Notify { m_observers := r } e w)) := by
  have hreg := RemoveObserver_of_count_one r o cout h
  refine ⟨?_, ?_, ?_⟩
  · rw [Notify_callsSince, received_map_same, hreg]
    have : (r.filter (fun q => q ≠ o)).count o = 0 :=
      List.count_eq_zero_of_not_mem (by simp)
    rw [this]
    rfl
  · rw [Notify_callsSince, Notify_callsSince, hreg]
    simp [List.filter_map, Function.comp_def]
  · intro q hq
    rw [Notify_callsSince, Notify_callsSince, received_map_same, received_map_same, hreg]
    rw [List.count_filter (by simpa using hq)]

theorem RemoveObserver_single_registration_witness :
    ([2, 1, 3, 2] : List Ptr).count 1 = 1 ∧
    (received 1
        (exampleWorld.callsSince
          ((Subject.RemoveObserver { m_observers := [2, 1, 3, 2] } 1 []).1.Notify
            (Event.coinCollect { coins := 4 }) exampleWorld))
      = [] ∧
    exampleWorld.callsSince
        ((Subject.RemoveObserver { m_observers := [2, 1, 3, 2] } 1 []).1.Notify
          (Event.coinCollect { coins := 4 }) exampleWorld)
      = (exampleWorld.callsSince
          (Subject.Notify { m_observers := [2, 1, 3, 2] }
            (Event.coinCollect { coins := 4 }) exampleWorld)).filter
          (fun c => c.1 ≠ 1) ∧
    ∀ q : Ptr, q ≠ 1 →
      received q
          (exampleWorld.callsSince
            ((Subject.RemoveObserver { m_observers := [2, 1, 3, 2] } 1 []).1.Notify
              (Event.coinCollect { coins := 4 }) exampleWorld))
        = received q
          (exampleWorld.callsSince
            (Subject.Notify { m_observers := [2, 1, 3, 2] }
              (Event.coinCollect { coins := 4 }) exampleWorld))) :=
  ⟨by decide,
    RemoveObserver_single_registration [2, 1, 3, 2] 1 (Event.coinCollect { coins := 4 })
      exampleWorld [] (by decide)⟩

/-! ## The failed-cast warning is never written by the player's broadcasts -/

theorem HealthPopUp_line_ne_cast_warning (t : String) :
    "[UI]: You have " ++ t ++ " health!" ≠ " * [WARNING] Event cast failed for event" := by
  intro h
  have h2 := congrArg (fun s => s.data.head?) h
  simp [String.data_append] at h2

theorem CoinPopUp_line_ne_cast_warning (t : String) :
    "[UI]: You got " ++ t ++ " coins!" ≠ " * [WARNING] Event cast failed for event" := by
  intro h
  have h2 := congrArg (fun s => s.data.head?) h
  simp [String.data_append] at h2

theorem UI_OnNotify_coinCollect (coins : Int) (cout : Cout) :
    UI.OnNotify (Event.coinCollect { coins := coins }) cout
      = cout ++ ["[UI]: You got " ++ toString coins ++ " coins!"] := by
  simp [UI.OnNotify, Event.GetType, Observer.EventCast, DynamicCast.dynamic_cast,
    UI.CoinPopUp]

theorem ObserverObj_OnNotify_no_cast_warning (obj : ObserverObj) (e : Event) (cout : Cout) :
    ∃ added : Cout, (obj.OnNotify e cout).2 = cout ++ added ∧
      " * [WARNING] Event cast failed for event" ∉ added := by
  cases obj with
  | ui u =>
    cases e with
    | playerDamage p =>
      refine ⟨["[UI]: You have " ++ toString p.health ++ " health!"], ?_, ?_⟩
      · exact UI_OnNotify_playerDamage p.health p.damage cout
      · simpa using (HealthPopUp_line_ne_cast_warning (toString p.health)).symm
    | coinCollect c =>
      refine ⟨["[UI]: You got " ++ toString c.coins ++ " coins!"], ?_, ?_⟩
      · exact UI_OnNotify_coinCollect c.coins cout
      · simpa using (CoinPopUp_line_ne_cast_warning (toString c.coins)).symm
  | achievement a =>
    cases e with
    | playerDamage p =>
      by_cases ha : a.unlockedDamageAchievement = true
      · exact ⟨[], by simp [ObserverObj.OnNotify, Achievement.OnNotify, Event.GetType, ha],
          by simp⟩
      · exact ⟨["[ACHIEVEMENT]: You unlocked the 'Take damage' achievement!"],
          by simp [ObserverObj.OnNotify, Achievement.OnNotify, Event.GetType, ha],
          by decide⟩
    | coinCollect c =>
      exact ⟨[], by simp [ObserverObj.OnNotify, Achievement.OnNotify, Event.GetType],
        by simp⟩

theorem foldl_OnNotify_no_cast_warning (e : Event) (l : List Ptr) (w : World) :
    ∃ added : Cout,
      (l.foldl (fun w observer => w.OnNotify observer e) w).cout = w.cout ++ added ∧
      " * [WARNING] Event cast failed for event" ∉ added := by
  induction l generalizing w with
  | nil => exact ⟨[], by simp, by simp⟩
  | cons o l ih =>
    obtain ⟨a1, h1, hn1⟩ := ObserverObj_OnNotify_no_cast_warning (w.heap o) e w.cout
    obtain ⟨a2, h2, hn2⟩ := ih (w.OnNotify o e)
    refine ⟨a1 ++ a2, ?_, ?_⟩
    · rw [List.foldl_cons, h2]
      have hc : (w.OnNotify o e).cout = w.cout ++ a1 := h1
      rw [hc, List.append_assoc]
    · intro hmem
      rcases List.mem_append.mp hmem with hm | hm
      · exact hn1 hm
      · exact hn2 hm

theorem call_no_cast_warning (p : Player) (c : PlayerCall) (w : World) :
    ∃ added : Cout, (p.call c w).2.cout = w.cout ++ added ∧
      " * [WARNING] Event cast failed for event" ∉ added := by
  cases c with
  | Damage dmg => exact foldl_OnNotify_no_cast_warning _ _ w
  | CollectCoins amt => exact foldl_OnNotify_no_cast_warning _ _ w

/-- C16: whatever the registry and whatever `UI` and `Achievement` objects it
points to, a sequence of `Damage` and `CollectCoins` calls on a player only
appends lines to the console, and none of the appended lines is
` * [WARNING] Event cast failed for event`: the failed-cast branch of
`EventCast` is never taken. -/
theorem cast_warning_never_written (cs : List PlayerCall) (p : Player) (w : World) :
    ∃ added : Cout, (p.run cs w).2.cout = w.cout ++ added ∧
      " * [WARNING] Event cast failed for event" ∉ added := by
  induction cs generalizing p w with
  | nil => exact ⟨[], by simp [Player.run], by simp⟩
  | cons c cs ih =>
    obtain ⟨a1, h1, hn1⟩ := call_no_cast_warning p c w
    obtain ⟨a2, h2, hn2⟩ := ih (p.call c w).1 (p.call c w).2
    have hstep : p.run (c :: cs) w = (p.call c w).1.run cs (p.call c w).2 := rfl
    refine ⟨a1 ++ a2, ?_, ?_⟩
    · rw [hstep, h2, h1, List.append_assoc]
    · intro hmem
      rcases List.mem_append.mp hmem with hm | hm
      · exact hn1 hm
      · exact hn2 hm

end ObserverPattern
